import Mathlib

/-!
Verification of the estafette-cloudflare-dns reconciliation controller.

The development shallowly embeds the two layers of the program:

* the Cloudflare API client (zone resolution by progressively shorter DNS
  suffixes, record CRUD, upsert with type-change handling, proxy toggling),
  modelled over an abstract REST environment `CfEnv` that fixes the
  provider's response to every request, together with a trace of the REST
  operations (`CfOp`) the client performs;
* the reconciler in main.go (desired/applied state extraction from
  annotations, change detection, the external and internal record phases,
  hostname validation, the deletion path), modelled over an abstract
  client environment `ClientEnv` that fixes the outcome of every
  Cloudflare client call, together with a trace of the client calls
  (`ClientCall`) the reconciler performs.

`clientOfEnv` connects the two layers: it runs every reconciler-level
client call through the embedded Cloudflare client.
-/

namespace CloudflareDNS

/-- Splitting a character list on a separator character, keeping empty
segments; the recursion is structural so that concrete runs reduce inside
the kernel. -/
def splitChars (sep : Char) : List Char → List (List Char)
  | [] => [[]]
  | c :: rest =>
    let r := splitChars sep rest
    if c = sep then [] :: r
    else
      match r with
      | [] => [c] :: []
      | w :: ws => (c :: w) :: ws

/-- The embedding of Go strings.Split for a single-character separator
(the program only ever splits on a dot or a comma): splitting the empty
string yields one empty segment, and separators at the edges yield empty
segments, exactly as in Go. -/
def splitOnChar (sep : Char) (s : String) : List String :=
  (splitChars sep s.data).map (fun cs => String.mk cs)

/-- A Cloudflare zone (the fields the program reads). -/
structure Zone where
  id : String := ""
  name : String := ""
deriving DecidableEq

/-- A Cloudflare dns record (the fields the program reads or sends). -/
structure DNSRecord where
  id : String := ""
  rtype : String := ""
  name : String := ""
  content : String := ""
  proxiable : Bool := false
  proxied : Bool := false
  ttl : Nat := 0
  zoneID : String := ""
deriving DecidableEq

/-- The pagination envelope of Cloudflare list responses. -/
structure ResultInfo where
  page : Nat := 0
  perPage : Nat := 0
  count : Nat := 0
  totalCount : Nat := 0
deriving DecidableEq

/-- Response to a zone list request. -/
structure zonesResult where
  success : Bool := false
  zones : List Zone := []
  resultInfo : ResultInfo := {}
deriving DecidableEq

/-- Response to a dns record list request. -/
structure dNSRecordsResult where
  success : Bool := false
  dnsRecords : List DNSRecord := []
  resultInfo : ResultInfo := {}
deriving DecidableEq

/-- Response to a record create request. -/
structure createResult where
  success : Bool := false
  dnsRecord : DNSRecord := {}
deriving DecidableEq

/-- Response to a record update request. -/
structure updateResult where
  success : Bool := false
  dnsRecord : DNSRecord := {}
deriving DecidableEq

/-- Response to a record delete request. -/
structure deleteResult where
  success : Bool := false
deriving DecidableEq

/-- The error cases of the client and reconciler; one constructor per
error site in the source. -/
inductive CfError where
  | listZonesFailed
  | dnsNameTooFewParts (dnsName : String)
  | sourceEmpty
  | numberOfItemsTooLarge
  | zonesEmpty
  | noZoneMatchesName
  | noMatchingZone
  | listRecordsFailed
  | createFailed
  | deleteFailed
  | updateFailed
  | cannotChangeType
  | noMatchingRecord
  | moreThanOneRecord
  | moreThanOneRecordProxy
  | typeOrContentMismatch
  | indexOutOfRange
  | kubeUpdateFailed
deriving DecidableEq

/-- A REST operation sent to the Cloudflare API. -/
inductive CfOp where
  | getZones (zoneName : String)
  | getRecords (zoneID dnsRecordName : String)
  | post (zoneID : String) (record : DNSRecord)
  | put (zoneID recordID : String) (record : DNSRecord)
  | delete (zoneID recordID : String)
deriving DecidableEq

/-- The provider environment: the response the Cloudflare API gives to
every possible request. -/
structure CfEnv where
  zones : String → zonesResult := fun _ => {}
  records : String → String → dNSRecordsResult := fun _ _ => {}
  postResponse : String → DNSRecord → createResult := fun _ _ => {}
  putResponse : String → String → DNSRecord → updateResult := fun _ _ _ => {}
  deleteResponse : String → String → deleteResult := fun _ _ => {}

/-- getZonesByName: list zones by exact name; a non-success envelope is an
error. -/
def getZonesByName (env : CfEnv) (zoneName : String) :
    Except CfError zonesResult × List CfOp :=
  (if (env.zones zoneName).success then .ok (env.zones zoneName)
   else .error .listZonesFailed,
   [.getZones zoneName])

/-- getLastItemsFromSlice: the last numberOfItems elements of source. -/
def getLastItemsFromSlice (source : List String) (numberOfItems : Nat) :
    Except CfError (List String) :=
  if source.length = 0 then .error .sourceEmpty
  else if numberOfItems > source.length then .error .numberOfItemsTooLarge
  else .ok (source.drop (source.length - numberOfItems))

/-- getMatchingZoneFromZones: the first zone whose name equals zoneName. -/
def getMatchingZoneFromZones (zones : List Zone) (zoneName : String) :
    Except CfError Zone :=
  if zones.length = 0 then .error .zonesEmpty
  else
    match zones.find? (fun zone => zone.name == zoneName) with
    | some zone => .ok zone
    | none => .error .noZoneMatchesName

/-- A zone list response the narrowing loop accepts: a non-empty count
that fits within one page (the literal condition of the Go loop). -/
def usableZones (zr : zonesResult) : Prop :=
  0 < zr.resultInfo.count ∧ zr.resultInfo.count ≤ zr.resultInfo.perPage

instance (zr : zonesResult) : Decidable (usableZones zr) := by
  unfold usableZones; infer_instance

/-- The suffix-narrowing loop of GetZoneByDNSName: numberOfZoneItems counts
down from the number of labels; at each depth the last that many labels
are queried as a zone name, and the loop stops at the first depth whose
result page is non-empty and within one page. -/
def getZoneByDNSNameLoop (env : CfEnv) (dnsNameParts : List String) :
    Nat → Except CfError Zone × List CfOp
  | 0 => (.error .noMatchingZone, [])
  | 1 => (.error .noMatchingZone, [])
  | numberOfZoneItems + 2 =>
    match getLastItemsFromSlice dnsNameParts (numberOfZoneItems + 2) with
    | .error e => (.error e, [])
    | .ok zoneNameParts =>
      let zoneName := String.intercalate "." zoneNameParts
      match getZonesByName env zoneName with
      | (.error e, ops) => (.error e, ops)
      | (.ok zonesRes, ops) =>
        if usableZones zonesRes then
          (getMatchingZoneFromZones zonesRes.zones zoneName, ops)
        else
          let next := getZoneByDNSNameLoop env dnsNameParts (numberOfZoneItems + 1)
          (next.1, ops ++ next.2)

/-- GetZoneByDNSName: split the dns name on dots, require at least two
labels, then narrow from the full name down to the last two labels. -/
def GetZoneByDNSName (env : CfEnv) (dnsName : String) :
    Except CfError Zone × List CfOp :=
  let dnsNameParts := splitOnChar ('.') dnsName
  if dnsNameParts.length < 2 then
    (.error (.dnsNameTooFewParts dnsName), [])
  else
    getZoneByDNSNameLoop env dnsNameParts dnsNameParts.length

/-- getDNSRecordsByZoneAndName: list records by exact name within a zone. -/
def getDNSRecordsByZoneAndName (env : CfEnv) (zone : Zone)
    (dnsRecordName : String) : Except CfError dNSRecordsResult × List CfOp :=
  (if (env.records zone.id dnsRecordName).success then
     .ok (env.records zone.id dnsRecordName)
   else .error .listRecordsFailed,
   [.getRecords zone.id dnsRecordName])

/-- createDNSRecordByZone: POST a new record holding only type, name and
content (all other fields are zero values). -/
def createDNSRecordByZone (env : CfEnv) (zone : Zone)
    (dnsRecordType dnsRecordName dnsRecordContent : String) :
    Except CfError createResult × List CfOp :=
  (if (env.postResponse zone.id
        { rtype := dnsRecordType, name := dnsRecordName,
          content := dnsRecordContent }).success then
     .ok (env.postResponse zone.id
       { rtype := dnsRecordType, name := dnsRecordName,
         content := dnsRecordContent })
   else .error .createFailed,
   [.post zone.id
     { rtype := dnsRecordType, name := dnsRecordName,
       content := dnsRecordContent }])

/-- deleteDNSRecordByDNSRecord: DELETE by the record's zone id and id. -/
def deleteDNSRecordByDNSRecord (env : CfEnv) (dnsRecord : DNSRecord) :
    Except CfError deleteResult × List CfOp :=
  (if (env.deleteResponse dnsRecord.zoneID dnsRecord.id).success then
     .ok (env.deleteResponse dnsRecord.zoneID dnsRecord.id)
   else .error .deleteFailed,
   [.delete dnsRecord.zoneID dnsRecord.id])

/-- updateDNSRecordByDNSRecord: refuse a type change, then PUT the record
with its content replaced. -/
def updateDNSRecordByDNSRecord (env : CfEnv) (dnsRecord : DNSRecord)
    (dnsRecordType dnsRecordContent : String) :
    Except CfError updateResult × List CfOp :=
  if dnsRecord.rtype ≠ dnsRecordType then (.error .cannotChangeType, [])
  else
    (if (env.putResponse dnsRecord.zoneID dnsRecord.id
          { dnsRecord with content := dnsRecordContent }).success then
       .ok (env.putResponse dnsRecord.zoneID dnsRecord.id
         { dnsRecord with content := dnsRecordContent })
     else .error .updateFailed,
     [.put dnsRecord.zoneID dnsRecord.id
       { dnsRecord with content := dnsRecordContent }])

/-- The body of UpsertDNSRecord after zone resolution: look up the record
by name; more than one is an error; exactly one of a different type is
deleted and re-created; exactly one of the same type is updated in place,
clearing the proxied flag first when downgrading; none is created. -/
def upsertDNSRecordByZone (env : CfEnv) (zone : Zone)
    (dnsRecordType dnsRecordName dnsRecordContent : String) (proxy : Bool) :
    Except CfError DNSRecord × List CfOp :=
  match getDNSRecordsByZoneAndName env zone dnsRecordName with
  | (.error e, ops) => (.error e, ops)
  | (.ok recordsRes, ops) =>
    if 1 < recordsRes.resultInfo.count then
      (.error .moreThanOneRecord, ops)
    else if recordsRes.resultInfo.count = 1 then
      match recordsRes.dnsRecords with
      | [] => (.error .indexOutOfRange, ops)
      | r :: _ =>
        if dnsRecordType ≠ r.rtype then
          match deleteDNSRecordByDNSRecord env r with
          | (.error e, dops) => (.error e, ops ++ dops)
          | (.ok _, dops) =>
            match createDNSRecordByZone env zone dnsRecordType dnsRecordName
                dnsRecordContent with
            | (.error e, cops) => (.error e, ops ++ dops ++ cops)
            | (.ok cr, cops) => (.ok cr.dnsRecord, ops ++ dops ++ cops)
        else
          match updateDNSRecordByDNSRecord env
              (if r.proxied && !proxy then { r with proxied := proxy } else r)
              dnsRecordType dnsRecordContent with
          | (.error e, uops) => (.error e, ops ++ uops)
          | (.ok ur, uops) => (.ok ur.dnsRecord, ops ++ uops)
    else
      match createDNSRecordByZone env zone dnsRecordType dnsRecordName
          dnsRecordContent with
      | (.error e, cops) => (.error e, ops ++ cops)
      | (.ok cr, cops) => (.ok cr.dnsRecord, ops ++ cops)

/-- UpsertDNSRecord: resolve the zone, then upsert within it. -/
def UpsertDNSRecord (env : CfEnv)
    (dnsRecordType dnsRecordName dnsRecordContent : String) (proxy : Bool) :
    Except CfError DNSRecord × List CfOp :=
  match GetZoneByDNSName env dnsRecordName with
  | (.error e, ops) => (.error e, ops)
  | (.ok zone, ops) =>
    let next :=
      upsertDNSRecordByZone env zone dnsRecordType dnsRecordName
        dnsRecordContent proxy
    (next.1, ops ++ next.2)

/-- The body of UpdateProxySetting after zone resolution: look up the
single record by name and, when it is proxiable, PUT it with the proxied
flag set to the requested value; a non-proxiable record is silently left
alone. -/
def updateProxySettingByZone (env : CfEnv) (zone : Zone)
    (dnsRecordName : String) (proxy : Bool) :
    Except CfError DNSRecord × List CfOp :=
  match getDNSRecordsByZoneAndName env zone dnsRecordName with
  | (.error e, gops) => (.error e, gops)
  | (.ok recordsRes, gops) =>
    if recordsRes.resultInfo.count = 0 then
      (.error .noMatchingRecord, gops)
    else if 1 < recordsRes.resultInfo.count then
      (.error .moreThanOneRecordProxy, gops)
    else
      match recordsRes.dnsRecords with
      | [] => (.error .indexOutOfRange, gops)
      | r :: _ =>
        if r.proxiable then
          (if (env.putResponse r.zoneID r.id { r with proxied := proxy }).success
           then .ok { r with proxied := proxy }
           else .error .updateFailed,
           gops ++ [.put r.zoneID r.id { r with proxied := proxy }])
        else
          (.ok r, gops)

/-- UpdateProxySetting: resolve the zone, then toggle within it. -/
def UpdateProxySetting (env : CfEnv) (dnsRecordName : String) (proxy : Bool) :
    Except CfError DNSRecord × List CfOp :=
  match GetZoneByDNSName env dnsRecordName with
  | (.error e, ops) => (.error e, ops)
  | (.ok zone, ops) =>
    let next := updateProxySettingByZone env zone dnsRecordName proxy
    (next.1, ops ++ next.2)

/-- The body of DeleteDNSRecord after zone resolution: delete the first
record found by exact name. -/
def deleteDNSRecordByZone (env : CfEnv) (zone : Zone)
    (dnsRecordName : String) : Except CfError Bool × List CfOp :=
  match getDNSRecordsByZoneAndName env zone dnsRecordName with
  | (.error e, ops) => (.error e, ops)
  | (.ok recordsRes, ops) =>
    if recordsRes.resultInfo.count = 0 then
      (.error .noMatchingRecord, ops)
    else
      match recordsRes.dnsRecords with
      | [] => (.error .indexOutOfRange, ops)
      | r :: _ =>
        match deleteDNSRecordByDNSRecord env r with
        | (.error e, dops) => (.error e, ops ++ dops)
        | (.ok _, dops) => (.ok true, ops ++ dops)

/-- DeleteDNSRecord: resolve the zone, then delete within it. -/
def DeleteDNSRecord (env : CfEnv) (dnsRecordName : String) :
    Except CfError Bool × List CfOp :=
  match GetZoneByDNSName env dnsRecordName with
  | (.error e, ops) => (.error e, ops)
  | (.ok zone, ops) =>
    let next := deleteDNSRecordByZone env zone dnsRecordName
    (next.1, ops ++ next.2)

/-- DeleteDNSRecordIfMatching: delete the record only if its type and
content both match the given values. -/
def DeleteDNSRecordIfMatching (env : CfEnv)
    (dnsRecordName dnsRecordType dnsRecordContent : String) :
    Except CfError Bool × List CfOp :=
  match GetZoneByDNSName env dnsRecordName with
  | (.error e, ops) => (.error e, ops)
  | (.ok zone, ops) =>
    match getDNSRecordsByZoneAndName env zone dnsRecordName with
    | (.error e, gops) => (.error e, ops ++ gops)
    | (.ok recordsRes, gops) =>
      let ops := ops ++ gops
      if recordsRes.resultInfo.count = 0 then
        (.error .noMatchingRecord, ops)
      else
        match recordsRes.dnsRecords with
        | [] => (.error .indexOutOfRange, ops)
        | r :: _ =>
          if r.rtype ≠ dnsRecordType ∨ r.content ≠ dnsRecordContent then
            (.error .typeOrContentMismatch, ops)
          else
            match deleteDNSRecordByDNSRecord env r with
            | (.error e, dops) => (.error e, ops ++ dops)
            | (.ok _, dops) => (.ok true, ops ++ dops)

/-! ## The reconciler (main.go) -/

/-- The state annotation payload: what was last applied at Cloudflare. -/
structure CloudflareState where
  Enabled : String := ""
  Hostnames : String := ""
  InternalHostnames : String := ""
  Proxy : String := ""
  UseOriginRecord : String := ""
  OriginRecordHostname : String := ""
  IPAddress : String := ""
  InternalIPAddress : String := ""
deriving DecidableEq

def annotationCloudflareDNS : String := "estafette.io/cloudflare-dns"

def annotationCloudflareHostnames : String := "estafette.io/cloudflare-hostnames"

def annotationCloudflareInternalHostnames : String :=
  "estafette.io/cloudflare-internal-hostnames"

def annotationCloudflareProxy : String := "estafette.io/cloudflare-proxy"

def annotationCloudflareUseOriginRecord : String :=
  "estafette.io/cloudflare-use-origin-record"

def annotationCloudflareOriginRecordHostname : String :=
  "estafette.io/cloudflare-origin-record-hostname"

def annotationCloudflareState : String := "estafette.io/cloudflare-state"

/-- The fields of a kubernetes service the program reads. -/
structure KubeService where
  annotationList : List (String × String) := []
  specType : String := ""
  loadBalancerIngressIPs : List String := []
  clusterIP : String := ""
deriving DecidableEq

/-- The fields of a kubernetes ingress the program reads. -/
structure KubeIngress where
  annotationList : List (String × String) := []
  loadBalancerIngressIPs : List String := []
deriving DecidableEq

/-- Look an annotation key up in an annotation map. -/
def lookupAnn (annotationList : List (String × String)) (key : String) :
    Option String :=
  (annotationList.find? (fun pair => pair.1 == key)).map (fun pair => pair.2)

/-- getDesiredServiceState: read the annotations with their defaults; the
external ip only when the service is a LoadBalancer with at least one
ingress address (first address wins); the internal ip from the cluster ip
when non-empty. -/
def getDesiredServiceState (service : KubeService) : CloudflareState :=
  { Enabled := (lookupAnn service.annotationList annotationCloudflareDNS).getD "false"
    Hostnames := (lookupAnn service.annotationList annotationCloudflareHostnames).getD ""
    InternalHostnames :=
      (lookupAnn service.annotationList annotationCloudflareInternalHostnames).getD ""
    Proxy := (lookupAnn service.annotationList annotationCloudflareProxy).getD "true"
    UseOriginRecord :=
      (lookupAnn service.annotationList annotationCloudflareUseOriginRecord).getD "false"
    OriginRecordHostname :=
      (lookupAnn service.annotationList annotationCloudflareOriginRecordHostname).getD ""
    IPAddress :=
      if service.specType = "LoadBalancer" ∧ 0 < service.loadBalancerIngressIPs.length
      then service.loadBalancerIngressIPs.headD "" else ""
    InternalIPAddress := if service.clusterIP ≠ "" then service.clusterIP else "" }

/-- getDesiredIngressState: like the service extractor but with no
internal hostnames, no internal ip, and no LoadBalancer type check. -/
def getDesiredIngressState (ingress : KubeIngress) : CloudflareState :=
  { Enabled := (lookupAnn ingress.annotationList annotationCloudflareDNS).getD "false"
    Hostnames := (lookupAnn ingress.annotationList annotationCloudflareHostnames).getD ""
    Proxy := (lookupAnn ingress.annotationList annotationCloudflareProxy).getD "true"
    UseOriginRecord :=
      (lookupAnn ingress.annotationList annotationCloudflareUseOriginRecord).getD "false"
    OriginRecordHostname :=
      (lookupAnn ingress.annotationList annotationCloudflareOriginRecordHostname).getD ""
    IPAddress :=
      if 0 < ingress.loadBalancerIngressIPs.length
      then ingress.loadBalancerIngressIPs.headD "" else "" }

/-- getCurrentServiceState: decode the state annotation; a missing
annotation or a failed parse yields the zero-value state. The JSON
decoder itself is the standard library collaborator, abstracted as the
jsonParse argument (none models a parse failure). -/
def getCurrentServiceState (jsonParse : String → Option CloudflareState)
    (service : KubeService) : CloudflareState :=
  match lookupAnn service.annotationList annotationCloudflareState with
  | none => {}
  | some cloudflareStateString =>
    match jsonParse cloudflareStateString with
    | none => {}
    | some state => state

/-- getCurrentIngressState: identical decoding for ingresses. -/
def getCurrentIngressState (jsonParse : String → Option CloudflareState)
    (ingress : KubeIngress) : CloudflareState :=
  match lookupAnn ingress.annotationList annotationCloudflareState with
  | none => {}
  | some cloudflareStateString =>
    match jsonParse cloudflareStateString with
    | none => {}
    | some state => state

/-- validateHostname: at least two dot-separated labels, each at most 63
characters. -/
def validateHostname (hostname : String) : Bool :=
  let dnsNameParts := splitOnChar ('.') hostname
  if dnsNameParts.length < 2 then false
  else dnsNameParts.all (fun label => label.length ≤ 63)

/-- A call made by the reconciler against the Cloudflare client. -/
inductive ClientCall where
  | upsert (dnsRecordType dnsRecordName dnsRecordContent : String) (proxy : Bool)
  | updateProxy (dnsRecordName : String) (proxy : Bool)
  | deleteRecord (dnsRecordName : String)
  | deleteIfMatching (dnsRecordName dnsRecordType dnsRecordContent : String)
deriving DecidableEq

/-- The client environment: the outcome of every Cloudflare client call
(the reconciler discards the returned record and keeps only the error). -/
def ClientEnv : Type := ClientCall → Except CfError Unit

/-- Run a reconciler-level client call through the embedded Cloudflare
client against a provider environment. -/
def clientOfEnv (env : CfEnv) : ClientEnv := fun call =>
  match call with
  | .upsert dnsRecordType dnsRecordName dnsRecordContent proxy =>
    (UpsertDNSRecord env dnsRecordType dnsRecordName dnsRecordContent proxy).1.map
      (fun _ => ())
  | .updateProxy dnsRecordName proxy =>
    (UpdateProxySetting env dnsRecordName proxy).1.map (fun _ => ())
  | .deleteRecord dnsRecordName =>
    (DeleteDNSRecord env dnsRecordName).1.map (fun _ => ())
  | .deleteIfMatching dnsRecordName dnsRecordType dnsRecordContent =>
    (DeleteDNSRecordIfMatching env dnsRecordName dnsRecordType
      dnsRecordContent).1.map (fun _ => ())

/-- The upsert a hostname receives in the external phase: a CNAME to the
origin hostname when origin indirection is active, else an A record to
the ip address. -/
def hostnameUpsertCall (desired : CloudflareState) (hostname : String) :
    ClientCall :=
  if desired.UseOriginRecord = "true" ∧ desired.OriginRecordHostname ≠ "" then
    .upsert "CNAME" hostname desired.OriginRecordHostname (desired.Proxy == "true")
  else
    .upsert "A" hostname desired.IPAddress (desired.Proxy == "true")

/-- The hostname loop of the external phase: per hostname, upsert then
update the proxy setting, failing fast on the first error. The service
pass validates each hostname first and silently skips invalid ones
(validate = true); the ingress pass does not validate (validate = false). -/
def hostnameLoop (client : ClientEnv) (desired : CloudflareState)
    (validate : Bool) : List String → Except CfError Unit × List ClientCall
  | [] => (.ok (), [])
  | hostname :: rest =>
    if validate && !validateHostname hostname then
      hostnameLoop client desired validate rest
    else
      match client (hostnameUpsertCall desired hostname) with
      | .error e => (.error e, [hostnameUpsertCall desired hostname])
      | .ok _ =>
        match client (ClientCall.updateProxy hostname (desired.Proxy == "true")) with
        | .error e =>
          (.error e, [hostnameUpsertCall desired hostname,
            ClientCall.updateProxy hostname (desired.Proxy == "true")])
        | .ok _ =>
          match hostnameLoop client desired validate rest with
          | (res, calls) =>
            (res, hostnameUpsertCall desired hostname ::
              ClientCall.updateProxy hostname (desired.Proxy == "true") :: calls)

/-- The external record set phase shared by services (validate = true)
and ingresses (validate = false): upsert the origin A record when origin
indirection is active, run the hostname loop, then delete the origin
record when the desired state still names one but origin indirection is
off. -/
def externalRecordSetChanges (client : ClientEnv) (desired : CloudflareState)
    (validate : Bool) : Except CfError Unit × List ClientCall :=
  match (if desired.UseOriginRecord = "true" ∧ desired.OriginRecordHostname ≠ ""
    then
      (client (ClientCall.upsert "A" desired.OriginRecordHostname
        desired.IPAddress false),
       [ClientCall.upsert "A" desired.OriginRecordHostname
         desired.IPAddress false])
    else (.ok (), [])) with
  | (.error e, calls0) => (.error e, calls0)
  | (.ok _, calls0) =>
    match hostnameLoop client desired validate
        (splitOnChar (',') desired.Hostnames) with
    | (.error e, calls1) => (.error e, calls0 ++ calls1)
    | (.ok _, calls1) =>
      if desired.OriginRecordHostname ≠ "" ∧
          (desired.UseOriginRecord ≠ "true" ∨ desired.OriginRecordHostname = "") then
        match client (ClientCall.deleteRecord desired.OriginRecordHostname) with
        | .error e =>
          (.error e, calls0 ++ calls1 ++
            [ClientCall.deleteRecord desired.OriginRecordHostname])
        | .ok _ =>
          (.ok (), calls0 ++ calls1 ++
            [ClientCall.deleteRecord desired.OriginRecordHostname])
      else
        (.ok (), calls0 ++ calls1)

/-- The internal phase hostname loop: an unproxied A record per internal
hostname, failing fast. -/
def internalHostnameLoop (client : ClientEnv) (internalIPAddress : String) :
    List String → Except CfError Unit × List ClientCall
  | [] => (.ok (), [])
  | hostname :: rest =>
    match client (ClientCall.upsert "A" hostname internalIPAddress false) with
    | .error e => (.error e, [ClientCall.upsert "A" hostname internalIPAddress false])
    | .ok _ =>
      match internalHostnameLoop client internalIPAddress rest with
      | (res, calls) =>
        (res, ClientCall.upsert "A" hostname internalIPAddress false :: calls)

/-- The internal record set phase of makeServiceChanges. -/
def internalRecordSetChanges (client : ClientEnv) (desired : CloudflareState) :
    Except CfError Unit × List ClientCall :=
  internalHostnameLoop client desired.InternalIPAddress
    (splitOnChar (',') desired.InternalHostnames)

/-- The outcome of one reconciliation pass: the reported status, the
client calls performed, the state written to the state annotation (none
when the annotation is untouched), and the returned error. -/
structure ReconcileResult where
  status : String
  calls : List ClientCall
  stateWrite : Option CloudflareState
  error : Option CfError
deriving DecidableEq

/-- The external phase runs when its guard holds (enabled, non-empty
hostname string, non-empty ip) and one of the five watched fields differs
from the stored state. -/
def externalTrigger (desired current : CloudflareState) : Prop :=
  (desired.Enabled = "true" ∧ 0 < desired.Hostnames.length ∧
    desired.IPAddress ≠ "") ∧
  (desired.IPAddress ≠ current.IPAddress ∨
    desired.Hostnames ≠ current.Hostnames ∨
    desired.Proxy ≠ current.Proxy ∨
    desired.UseOriginRecord ≠ current.UseOriginRecord ∨
    desired.OriginRecordHostname ≠ current.OriginRecordHostname)

instance (desired current : CloudflareState) :
    Decidable (externalTrigger desired current) := by
  unfold externalTrigger; infer_instance

/-- The internal phase runs when its guard holds (enabled, non-empty
internal hostname string, non-empty internal ip) and one of the two
internal fields differs from the stored state. -/
def internalTrigger (desired current : CloudflareState) : Prop :=
  (desired.Enabled = "true" ∧ 0 < desired.InternalHostnames.length ∧
    desired.InternalIPAddress ≠ "") ∧
  (desired.InternalIPAddress ≠ current.InternalIPAddress ∨
    desired.InternalHostnames ≠ current.InternalHostnames)

instance (desired current : CloudflareState) :
    Decidable (internalTrigger desired current) := by
  unfold internalTrigger; infer_instance

/-- makeServiceChanges: run the external phase when its guard holds and a
watched field changed, then the internal phase likewise; when either
phase ran, write the full desired state to the state annotation and
update the service (kubeUpdateOk models that update call); otherwise
report skipped with no provider call. -/
def makeServiceChanges (client : ClientEnv) (kubeUpdateOk : Bool)
    (desired current : CloudflareState) : ReconcileResult :=
  match (if externalTrigger desired current
    then externalRecordSetChanges client desired true
    else (.ok (), [])) with
  | (.error e, calls1) => ⟨"failed", calls1, none, some e⟩
  | (.ok _, calls1) =>
    match (if internalTrigger desired current
      then internalRecordSetChanges client desired
      else (.ok (), [])) with
    | (.error e, calls2) => ⟨"failed", calls1 ++ calls2, none, some e⟩
    | (.ok _, calls2) =>
      if externalTrigger desired current ∨ internalTrigger desired current then
        if kubeUpdateOk then
          ⟨"succeeded", calls1 ++ calls2, some desired, none⟩
        else
          ⟨"failed", calls1 ++ calls2, some desired, some .kubeUpdateFailed⟩
      else
        ⟨"skipped", calls1 ++ calls2, none, none⟩

/-- makeIngressChanges: the external phase only, with no hostname
validation; on success write the state annotation and update the
ingress. -/
def makeIngressChanges (client : ClientEnv) (kubeUpdateOk : Bool)
    (desired current : CloudflareState) : ReconcileResult :=
  if externalTrigger desired current then
    match externalRecordSetChanges client desired false with
    | (.error e, calls) => ⟨"failed", calls, none, some e⟩
    | (.ok _, calls) =>
      if kubeUpdateOk then ⟨"succeeded", calls, some desired, none⟩
      else ⟨"failed", calls, some desired, some .kubeUpdateFailed⟩
  else
    ⟨"skipped", [], none, none⟩

/-- The deletion loop: one DeleteDNSRecordIfMatching attempt per hostname,
never aborting; the status becomes deleted on any success, and the
returned error is the one from the last attempt. -/
def deleteLoop (client : ClientEnv) (dnsRecordType ipAddress : String) :
    List String → String → Option CfError →
    String × List ClientCall × Option CfError
  | [], status, err => (status, [], err)
  | hostname :: rest, status, _ =>
    match client (ClientCall.deleteIfMatching hostname dnsRecordType ipAddress) with
    | .error e =>
      match deleteLoop client dnsRecordType ipAddress rest status (some e) with
      | (st, calls, err) =>
        (st, ClientCall.deleteIfMatching hostname dnsRecordType ipAddress :: calls,
          err)
    | .ok _ =>
      match deleteLoop client dnsRecordType ipAddress rest "deleted" none with
      | (st, calls, err) =>
        (st, ClientCall.deleteIfMatching hostname dnsRecordType ipAddress :: calls,
          err)

/-- deleteService: on a delete event, attempt a guarded deletion per
hostname of the desired state, best effort; a nil service is skipped. -/
def deleteService (client : ClientEnv) (service : Option KubeService) :
    ReconcileResult :=
  match service with
  | none => ⟨"skipped", [], none, none⟩
  | some svc =>
    match deleteLoop client
        (if (getDesiredServiceState svc).UseOriginRecord = "true" ∧
            (getDesiredServiceState svc).OriginRecordHostname ≠ ""
         then "CNAME" else "A")
        (getDesiredServiceState svc).IPAddress
        (splitOnChar (',') (getDesiredServiceState svc).Hostnames)
        "failed" none with
    | (st, calls, err) => ⟨st, calls, none, err⟩

/-! ## Spec-side helper definitions -/

/-- The REST operations that mutate provider state. -/
def isMutation : CfOp → Bool
  | .post _ _ => true
  | .put _ _ _ => true
  | .delete _ _ => true
  | _ => false

/-- The dot-joined suffix made of the last k labels of parts. -/
def zoneSuffix (parts : List String) (k : Nat) : String :=
  String.intercalate "." (parts.drop (parts.length - k))

lemma zoneSuffix_def (parts : List String) (k : Nat) :
    String.intercalate "." (parts.drop (parts.length - k)) = zoneSuffix parts k :=
  rfl

/-! ## Helper lemmas -/

lemma getLastItemsFromSlice_ok (source : List String) (k : Nat)
    (hne : source.length ≠ 0) (hk : k ≤ source.length) :
    getLastItemsFromSlice source k = .ok (source.drop (source.length - k)) := by
  unfold getLastItemsFromSlice
  rw [if_neg hne, if_neg (by omega)]

lemma getMatchingZoneFromZones_ok (zones : List Zone) (zoneName : String)
    (z : Zone) (h : getMatchingZoneFromZones zones zoneName = .ok z) :
    z.name = zoneName ∧ z ∈ zones := by
  unfold getMatchingZoneFromZones at h
  split at h
  · exact absurd h (by simp)
  · split at h
    case _ zone hfind =>
      cases h
      have hmem := List.mem_of_find?_eq_some hfind
      have hpred := List.find?_some hfind
      simp only [beq_iff_eq] at hpred
      exact ⟨hpred, hmem⟩
    case _ => exact absurd h (by simp)

lemma getZoneByDNSNameLoop_no_mutation (env : CfEnv) (parts : List String) :
    ∀ n, ((getZoneByDNSNameLoop env parts n).2).filter isMutation = [] := by
  intro n
  induction n using Nat.strong_induction_on with
  | _ n ih =>
    match n with
    | 0 => rfl
    | 1 => rfl
    | m + 2 =>
      rw [getZoneByDNSNameLoop]
      cases hlast : getLastItemsFromSlice parts (m + 2) with
      | error e => rfl
      | ok zoneNameParts =>
        simp only [getZonesByName]
        split
        case _ e ops heq =>
          injection heq with h1 h2
          subst h2
          rfl
        case _ zonesRes ops heq =>
          injection heq with h1 h2
          subst h2
          split
          · rfl
          · simp only [List.filter_append, List.filter_cons, List.filter_nil]
            rw [ih (m + 1) (by omega)]
            rfl

lemma GetZoneByDNSName_no_mutation (env : CfEnv) (dnsName : String) :
    ((GetZoneByDNSName env dnsName).2).filter isMutation = [] := by
  by_cases h : (splitOnChar '.' dnsName).length < 2
  · simp [GetZoneByDNSName, h]
  · simp [GetZoneByDNSName, h, getZoneByDNSNameLoop_no_mutation]

lemma getZoneByDNSNameLoop_ok_sound (env : CfEnv) (parts : List String)
    (hne : parts.length ≠ 0) :
    ∀ n z ops, n ≤ parts.length →
    getZoneByDNSNameLoop env parts n = (.ok z, ops) →
    ∃ k, 2 ≤ k ∧ k ≤ n ∧
      usableZones (env.zones (zoneSuffix parts k)) ∧
      (∀ j, k < j → j ≤ n → ¬usableZones (env.zones (zoneSuffix parts j))) ∧
      z.name = zoneSuffix parts k ∧
      z ∈ (env.zones (zoneSuffix parts k)).zones ∧
      (∀ j, k ≤ j → j ≤ n → CfOp.getZones (zoneSuffix parts j) ∈ ops) := by
  intro n
  induction n using Nat.strong_induction_on with
  | _ n ih =>
    match n with
    | 0 =>
      intro z ops _ hloop
      exact absurd hloop (by simp [getZoneByDNSNameLoop])
    | 1 =>
      intro z ops _ hloop
      exact absurd hloop (by simp [getZoneByDNSNameLoop])
    | m + 2 =>
      intro z ops hn hloop
      rw [getZoneByDNSNameLoop,
        getLastItemsFromSlice_ok parts (m + 2) hne hn] at hloop
      simp only [getZonesByName] at hloop
      split at hloop
      case _ e ops0 heq =>
        injection hloop with hres hops
        exact Except.noConfusion hres
      case _ zonesRes ops0 heq =>
        injection heq with h1 h2
        by_cases hsucc : (env.zones (String.intercalate "."
            (parts.drop (parts.length - (m + 2))))).success = true
        · rw [if_pos hsucc] at h1
          injection h1 with h1
          subst h1
          subst h2
          split at hloop
          case _ husable =>
            injection hloop with hres hops
            obtain ⟨hzname, hzmem⟩ := getMatchingZoneFromZones_ok _ _ _ hres
            refine ⟨m + 2, by omega, le_refl _, husable, ?_, hzname, hzmem, ?_⟩
            · intro j hj1 hj2
              omega
            · intro j hj1 hj2
              have hj : j = m + 2 := by omega
              subst hj
              rw [← hops]
              exact List.mem_singleton.mpr rfl
          case _ husable =>
            injection hloop with hres hops
            rcases hpair : getZoneByDNSNameLoop env parts (m + 1) with ⟨res1, ops2⟩
            rw [hpair] at hres hops
            simp only at hres hops
            subst hres
            obtain ⟨k, hk2, hk1, hku, hknot, hkname, hkmem, hkops⟩ :=
              ih (m + 1) (by omega) z ops2 (by omega) hpair
            refine ⟨k, hk2, by omega, hku, ?_, hkname, hkmem, ?_⟩
            · intro j hj1 hj2
              by_cases hj : j ≤ m + 1
              · exact hknot j hj1 hj
              · have hj22 : j = m + 2 := by omega
                subst hj22
                exact husable
            · intro j hj1 hj2
              rw [← hops]
              by_cases hj : j ≤ m + 1
              · exact List.mem_append_right _ (hkops j hj1 hj)
              · have hj22 : j = m + 2 := by omega
                subst hj22
                exact List.mem_append_left _ (List.mem_singleton.mpr rfl)
        · rw [if_neg hsucc] at h1
          exact Except.noConfusion h1

lemma getZoneByDNSNameLoop_reaches_first_usable (env : CfEnv)
    (parts : List String) (hne : parts.length ≠ 0) :
    ∀ n k, 2 ≤ k → k ≤ n → n ≤ parts.length →
    (∀ j, k < j → j ≤ n → (env.zones (zoneSuffix parts j)).success = true ∧
      ¬usableZones (env.zones (zoneSuffix parts j))) →
    (env.zones (zoneSuffix parts k)).success = true →
    usableZones (env.zones (zoneSuffix parts k)) →
    (getZoneByDNSNameLoop env parts n).1 =
      getMatchingZoneFromZones (env.zones (zoneSuffix parts k)).zones
        (zoneSuffix parts k) := by
  intro n
  induction n using Nat.strong_induction_on with
  | _ n ih =>
    match n with
    | 0 => intro k hk2 hkn _ _ _ _; omega
    | 1 => intro k hk2 hkn _ _ _ _; omega
    | m + 2 =>
      intro k hk2 hkn hn hskip hksucc hku
      rw [getZoneByDNSNameLoop, getLastItemsFromSlice_ok parts (m + 2) hne hn]
      simp only [getZonesByName]
      rw [zoneSuffix_def]
      by_cases hk : k = m + 2
      · subst hk
        rw [if_pos hksucc]
        split
        case _ e ops0 heq =>
          injection heq with h1 h2
          exact Except.noConfusion h1
        case _ zonesRes ops0 heq =>
          injection heq with h1 h2
          injection h1 with h1
          subst h1
          rw [if_pos hku]
      · have htop := hskip (m + 2) (by omega) (le_refl _)
        rw [if_pos htop.1]
        split
        case _ e ops0 heq =>
          injection heq with h1 h2
          exact Except.noConfusion h1
        case _ zonesRes ops0 heq =>
          injection heq with h1 h2
          injection h1 with h1
          subst h1
          rw [if_neg htop.2]
          exact ih (m + 1) (by omega) k hk2 (by omega) (by omega)
            (fun j hj1 hj2 => hskip j hj1 (by omega)) hksucc hku

lemma getZoneByDNSNameLoop_notfound (env : CfEnv) (parts : List String)
    (hne : parts.length ≠ 0) :
    ∀ n, n ≤ parts.length →
    (∀ j, 2 ≤ j → j ≤ n → (env.zones (zoneSuffix parts j)).success = true ∧
      ¬usableZones (env.zones (zoneSuffix parts j))) →
    (getZoneByDNSNameLoop env parts n).1 = .error .noMatchingZone := by
  intro n
  induction n using Nat.strong_induction_on with
  | _ n ih =>
    match n with
    | 0 => intro _ _; rfl
    | 1 => intro _ _; rfl
    | m + 2 =>
      intro hn hskip
      rw [getZoneByDNSNameLoop, getLastItemsFromSlice_ok parts (m + 2) hne hn]
      simp only [getZonesByName]
      rw [zoneSuffix_def]
      have htop := hskip (m + 2) (by omega) (le_refl _)
      rw [if_pos htop.1]
      split
      case _ e ops0 heq =>
        injection heq with h1 h2
        exact Except.noConfusion h1
      case _ zonesRes ops0 heq =>
        injection heq with h1 h2
        injection h1 with h1
        subst h1
        rw [if_neg htop.2]
        exact ih (m + 1) (by omega) (by omega)
          (fun j hj1 hj2 => hskip j hj1 (by omega))

/-! ## Example environments used by witnesses and counterexamples -/

/-- A provider holding only the zone server.com, answering every other
query with an empty successful page. -/
def envZoneSample : CfEnv :=
  { zones := fun s =>
      if s == "server.com" then
        { success := true, zones := [{ id := "z1", name := "server.com" }],
          resultInfo := { page := 1, perPage := 20, count := 1, totalCount := 1 } }
      else
        { success := true, zones := [], resultInfo := { perPage := 20 } } }

/-- A provider whose every zone query succeeds with an empty page. -/
def envNoZones : CfEnv :=
  { zones := fun _ =>
      { success := true, zones := [],
        resultInfo := { page := 1, perPage := 20, count := 0, totalCount := 0 } } }

/-- A provider reporting more zone matches than fit on one page at every
query. -/
def envOverPage : CfEnv :=
  { zones := fun _ =>
      { success := true, zones := [],
        resultInfo := { page := 1, perPage := 50, count := 150, totalCount := 150 } } }

/-! ## Claim theorems: zone resolution -/

/-- Claim C3: GetZoneByDNSName resolves the most specific matching zone by
querying progressively shorter dot-separated suffixes of the hostname,
from the full hostname down to the last two labels, returning the zone
whose name equals the first suffix for which the provider reports a
usable match; a hostname with fewer than two dot-separated labels fails
with a parse-level error before any API call. The first conjunct is the
parse-level guard (the empty trace shows no API call); the second shows
any successful resolution picks the first usable suffix and returns a
zone of exactly that name, having queried every depth from the full name
down to the match; the third shows the loop indeed reaches the first
usable depth when the provider answers the longer suffixes with
non-usable pages. -/
theorem getZoneByDNSName_resolution :
    (∀ env dnsName, (splitOnChar ('.') dnsName).length < 2 →
      GetZoneByDNSName env dnsName = (.error (.dnsNameTooFewParts dnsName), []))
    ∧
    (∀ env dnsName z ops, GetZoneByDNSName env dnsName = (.ok z, ops) →
      ∃ k, 2 ≤ k ∧ k ≤ (splitOnChar ('.') dnsName).length ∧
        usableZones (env.zones (zoneSuffix (splitOnChar ('.') dnsName) k)) ∧
        (∀ j, k < j → j ≤ (splitOnChar ('.') dnsName).length →
          ¬usableZones (env.zones (zoneSuffix (splitOnChar ('.') dnsName) j))) ∧
        z.name = zoneSuffix (splitOnChar ('.') dnsName) k ∧
        z ∈ (env.zones (zoneSuffix (splitOnChar ('.') dnsName) k)).zones ∧
        (∀ j, k ≤ j → j ≤ (splitOnChar ('.') dnsName).length →
          CfOp.getZones (zoneSuffix (splitOnChar ('.') dnsName) j) ∈ ops))
    ∧
    (∀ env dnsName k, 2 ≤ k → k ≤ (splitOnChar ('.') dnsName).length →
      (∀ j, k < j → j ≤ (splitOnChar ('.') dnsName).length →
        (env.zones (zoneSuffix (splitOnChar ('.') dnsName) j)).success = true ∧
        ¬usableZones (env.zones (zoneSuffix (splitOnChar ('.') dnsName) j))) →
      (env.zones (zoneSuffix (splitOnChar ('.') dnsName) k)).success = true →
      usableZones (env.zones (zoneSuffix (splitOnChar ('.') dnsName) k)) →
      (GetZoneByDNSName env dnsName).1 =
        getMatchingZoneFromZones
          (env.zones (zoneSuffix (splitOnChar ('.') dnsName) k)).zones
          (zoneSuffix (splitOnChar ('.') dnsName) k)) := by
  refine ⟨?_, ?_, ?_⟩
  · intro env dnsName hlen
    simp only [GetZoneByDNSName]
    rw [if_pos hlen]
  · intro env dnsName z ops h
    by_cases hlen : (splitOnChar ('.') dnsName).length < 2
    · simp only [GetZoneByDNSName] at h
      rw [if_pos hlen] at h
      injection h with h1 h2
      exact Except.noConfusion h1
    · simp only [GetZoneByDNSName] at h
      rw [if_neg hlen] at h
      exact getZoneByDNSNameLoop_ok_sound env _ (by omega) _ z ops (le_refl _) h
  · intro env dnsName k hk2 hkn hskip hsucc hku
    have hlen : ¬ (splitOnChar ('.') dnsName).length < 2 := by omega
    simp only [GetZoneByDNSName]
    rw [if_neg hlen]
    exact getZoneByDNSNameLoop_reaches_first_usable env _ (by omega) _ k hk2 hkn
      (le_refl _) hskip hsucc hku

/-- Witness for claim C3: against a provider holding only the zone
server.com, resolving www.server.com narrows from three labels to two and
returns that zone, and resolving the single label co fails with the
parse-level error and an empty trace. -/
theorem getZoneByDNSName_resolution_witness :
    GetZoneByDNSName envZoneSample "co" =
      (.error (.dnsNameTooFewParts "co"), []) ∧
    (∃ k, 2 ≤ k ∧ k ≤ (splitOnChar ('.') "www.server.com").length ∧
      usableZones (envZoneSample.zones
        (zoneSuffix (splitOnChar ('.') "www.server.com") k)) ∧
      (∀ j, k < j → j ≤ (splitOnChar ('.') "www.server.com").length →
        ¬usableZones (envZoneSample.zones
          (zoneSuffix (splitOnChar ('.') "www.server.com") j))) ∧
      Zone.name { id := "z1", name := "server.com" } =
        zoneSuffix (splitOnChar ('.') "www.server.com") k ∧
      Zone.mk "z1" "server.com" ∈ (envZoneSample.zones
        (zoneSuffix (splitOnChar ('.') "www.server.com") k)).zones ∧
      (∀ j, k ≤ j → j ≤ (splitOnChar ('.') "www.server.com").length →
        CfOp.getZones (zoneSuffix (splitOnChar ('.') "www.server.com") j) ∈
          [CfOp.getZones "www.server.com", CfOp.getZones "server.com"])) :=
  ⟨getZoneByDNSName_resolution.1 envZoneSample "co" (by decide),
   getZoneByDNSName_resolution.2.1 envZoneSample "www.server.com"
     { id := "z1", name := "server.com" }
     [CfOp.getZones "www.server.com", CfOp.getZones "server.com"] (by rfl)⟩

/-- Claim C7 (amended): when no suffix search depth yields a usable match
(each queried depth answers successfully with either an empty page or
more matches than the page holds), GetZoneByDNSName fails with the single
not-found error; an over-full page is simply skipped at each depth and
there is no distinct ambiguity error. -/
theorem getZoneByDNSName_notfound (env : CfEnv) (dnsName : String)
    (hlen : 2 ≤ (splitOnChar ('.') dnsName).length)
    (hsucc : ∀ s, (env.zones s).success = true)
    (hbad : ∀ s, (env.zones s).resultInfo.count = 0 ∨
      (env.zones s).resultInfo.perPage < (env.zones s).resultInfo.count) :
    (GetZoneByDNSName env dnsName).1 = .error .noMatchingZone := by
  have hnot : ¬ (splitOnChar ('.') dnsName).length < 2 := by omega
  simp only [GetZoneByDNSName]
  rw [if_neg hnot]
  refine getZoneByDNSNameLoop_notfound env _ (by omega) _ (le_refl _) ?_
  intro j hj1 hj2
  refine ⟨hsucc _, fun hu => ?_⟩
  have h1 := hu.1
  have h2 := hu.2
  rcases hbad (zoneSuffix (splitOnChar ('.') dnsName) j) with h | h
  · omega
  · omega

/-- Counterexample for claim C7: when more zones than the provider's
single page match the queried name (count 150 against a page of 50, at
every depth), GetZoneByDNSName does not fail with a distinct ambiguity
error: the over-full depth is skipped and the call fails with the very
same not-found error as the no-match case, so the claimed distinct
Ambiguous failure does not exist in the code. -/
theorem getZoneByDNSName_counterexample_overfull_page :
    (envOverPage.zones "server.com").resultInfo.perPage <
      (envOverPage.zones "server.com").resultInfo.count ∧
    (envOverPage.zones "server.com").success = true ∧
    (GetZoneByDNSName envOverPage "server.com").1 = .error .noMatchingZone ∧
    (GetZoneByDNSName envOverPage "server.com").1 =
      (GetZoneByDNSName envNoZones "server.com").1 := by
  refine ⟨by decide, by decide, by rfl, by rfl⟩

/-- Witness for claim C7 (amended): a provider answering every query with
an empty successful page makes GetZoneByDNSName fail with the not-found
error. -/
theorem getZoneByDNSName_notfound_witness :
    (GetZoneByDNSName envNoZones "www.server.com").1 =
      .error .noMatchingZone :=
  getZoneByDNSName_notfound envNoZones "www.server.com" (by decide)
    (fun _ => rfl) (fun _ => Or.inl rfl)

/-! ## Upsert lemmas -/

lemma UpsertDNSRecord_eq (env : CfEnv) (t n c : String) (p : Bool) (z : Zone)
    (ops0 : List CfOp) (hz : GetZoneByDNSName env n = (.ok z, ops0)) :
    UpsertDNSRecord env t n c p =
      ((upsertDNSRecordByZone env z t n c p).1,
        ops0 ++ (upsertDNSRecordByZone env z t n c p).2) := by
  unfold UpsertDNSRecord
  rw [hz]

lemma deleteDNSRecordByDNSRecord_ops (env : CfEnv) (r : DNSRecord) :
    (deleteDNSRecordByDNSRecord env r).2 = [.delete r.zoneID r.id] :=
  rfl

lemma createDNSRecordByZone_ops (env : CfEnv) (zone : Zone) (t n c : String) :
    (createDNSRecordByZone env zone t n c).2 =
      [.post zone.id { rtype := t, name := n, content := c }] :=
  rfl

lemma updateDNSRecordByDNSRecord_ops (env : CfEnv) (r : DNSRecord)
    (t c : String) (hrt : r.rtype = t) :
    (updateDNSRecordByDNSRecord env r t c).2 =
      [.put r.zoneID r.id { r with content := c }] := by
  unfold updateDNSRecordByDNSRecord
  rw [if_neg (by simp [hrt])]

lemma proxyClear_eq (r : DNSRecord) (p : Bool) :
    (if r.proxied && !p then { r with proxied := p } else r) =
      { r with proxied := r.proxied && p } := by
  cases r with
  | mk id rtype name content proxiable proxied ttl zoneID =>
    by_cases h1 : proxied <;> by_cases h2 : p <;> simp [h1, h2]

lemma upsertDNSRecordByZone_eq (env : CfEnv) (z : Zone) (t n c : String)
    (p : Bool) (hs : (env.records z.id n).success = true) :
    upsertDNSRecordByZone env z t n c p =
      (if 1 < (env.records z.id n).resultInfo.count then
        (.error .moreThanOneRecord, [CfOp.getRecords z.id n])
      else if (env.records z.id n).resultInfo.count = 1 then
        match (env.records z.id n).dnsRecords with
        | [] => (.error .indexOutOfRange, [CfOp.getRecords z.id n])
        | r :: _ =>
          if t ≠ r.rtype then
            match deleteDNSRecordByDNSRecord env r with
            | (.error e, dops) => (.error e, [CfOp.getRecords z.id n] ++ dops)
            | (.ok _, dops) =>
              match createDNSRecordByZone env z t n c with
              | (.error e, cops) =>
                (.error e, [CfOp.getRecords z.id n] ++ dops ++ cops)
              | (.ok cr, cops) =>
                (.ok cr.dnsRecord, [CfOp.getRecords z.id n] ++ dops ++ cops)
          else
            match updateDNSRecordByDNSRecord env
                (if r.proxied && !p then { r with proxied := p } else r) t c with
            | (.error e, uops) => (.error e, [CfOp.getRecords z.id n] ++ uops)
            | (.ok ur, uops) =>
              (.ok ur.dnsRecord, [CfOp.getRecords z.id n] ++ uops)
      else
        match createDNSRecordByZone env z t n c with
        | (.error e, cops) => (.error e, [CfOp.getRecords z.id n] ++ cops)
        | (.ok cr, cops) => (.ok cr.dnsRecord, [CfOp.getRecords z.id n] ++ cops)) := by
  unfold upsertDNSRecordByZone getDNSRecordsByZoneAndName
  rw [if_pos hs]

/-- Claim C1: for every UpsertDNSRecord call whose zone resolution
succeeds (and whose record listing succeeds): with more than one record
of that name the call fails without mutating anything; with exactly one
record of a different type the old record is deleted and a new record of
the requested type is created; with exactly one record of the same type a
single PUT updates the content in place, with no delete and no create;
and when the existing record is proxied while the requested flag is
false, the record sent in that PUT carries a cleared proxied flag. -/
theorem upsertDNSRecord_spec (env : CfEnv) (t n c : String) (p : Bool)
    (z : Zone) (ops0 : List CfOp)
    (hz : GetZoneByDNSName env n = (.ok z, ops0))
    (hs : (env.records z.id n).success = true) :
    (1 < (env.records z.id n).resultInfo.count →
      (UpsertDNSRecord env t n c p).1 = .error .moreThanOneRecord ∧
      ((UpsertDNSRecord env t n c p).2).filter isMutation = [])
    ∧
    (∀ r rest, (env.records z.id n).resultInfo.count = 1 →
      (env.records z.id n).dnsRecords = r :: rest →
      ((t ≠ r.rtype → (env.deleteResponse r.zoneID r.id).success = true →
        ((UpsertDNSRecord env t n c p).2).filter isMutation =
          [.delete r.zoneID r.id,
           .post z.id { rtype := t, name := n, content := c }])
       ∧
       (t = r.rtype →
        ((UpsertDNSRecord env t n c p).2).filter isMutation =
          [.put r.zoneID r.id
            { r with proxied := r.proxied && p, content := c }] ∧
        (r.proxied = true → p = false →
          ({ r with proxied := r.proxied && p, content := c } :
            DNSRecord).proxied = false)))) := by
  have hops0 : List.filter isMutation ops0 = [] := by
    have hzops := GetZoneByDNSName_no_mutation env n
    rw [hz] at hzops
    exact hzops
  rw [UpsertDNSRecord_eq env t n c p z ops0 hz]
  simp only [List.filter_append, hops0, List.nil_append]
  rw [upsertDNSRecordByZone_eq env z t n c p hs]
  constructor
  · intro hcount
    rw [if_pos hcount]
    exact ⟨rfl, rfl⟩
  · intro r rest hcount hrecs
    rw [if_neg (by omega), if_pos hcount]
    split
    case _ heq =>
      rw [hrecs] at heq
      exact List.noConfusion heq
    case _ r2 tail heq =>
    rw [hrecs] at heq
    injection heq with h1 h2
    subst h1
    constructor
    · intro hty hdel
      rw [if_pos hty]
      split
      case _ e dops heq =>
        have hfst : (deleteDNSRecordByDNSRecord env r).1 = .error e :=
          congrArg Prod.fst heq
        unfold deleteDNSRecordByDNSRecord at hfst
        rw [if_pos hdel] at hfst
        exact Except.noConfusion hfst
      case _ dr dops heq =>
        have hsnd : (deleteDNSRecordByDNSRecord env r).2 = dops :=
          congrArg Prod.snd heq
        rw [deleteDNSRecordByDNSRecord_ops] at hsnd
        split
        case _ e cops heq2 =>
          have hsnd2 : (createDNSRecordByZone env z t n c).2 = cops :=
            congrArg Prod.snd heq2
          rw [createDNSRecordByZone_ops] at hsnd2
          rw [← hsnd, ← hsnd2]
          rfl
        case _ cr cops heq2 =>
          have hsnd2 : (createDNSRecordByZone env z t n c).2 = cops :=
            congrArg Prod.snd heq2
          rw [createDNSRecordByZone_ops] at hsnd2
          rw [← hsnd, ← hsnd2]
          rfl
    · intro hty
      rw [if_neg (by simp [hty])]
      rw [proxyClear_eq]
      refine ⟨?_, fun h1 h2 => by simp [h1, h2]⟩
      split
      case _ e uops heq =>
        have hsnd : (updateDNSRecordByDNSRecord env
            { r with proxied := r.proxied && p } t c).2 = uops :=
          congrArg Prod.snd heq
        rw [updateDNSRecordByDNSRecord_ops env _ t c (by simp [hty])] at hsnd
        rw [← hsnd]
        rfl
      case _ ur uops heq =>
        have hsnd : (updateDNSRecordByDNSRecord env
            { r with proxied := r.proxied && p } t c).2 = uops :=
          congrArg Prod.snd heq
        rw [updateDNSRecordByDNSRecord_ops env _ t c (by simp [hty])] at hsnd
        rw [← hsnd]
        rfl

/-- The possible operation traces of the upsert body: listing only, a
delete (with the create following when the delete succeeded), a single
content PUT, or a create; the posted record is always the fresh
type-name-content record and the put record always derives from the
existing one. -/
lemma upsertDNSRecordByZone_ops_cases (env : CfEnv) (z : Zone)
    (t n c : String) (p : Bool) :
    (upsertDNSRecordByZone env z t n c p).2 = [CfOp.getRecords z.id n] ∨
    (∃ r rest, (env.records z.id n).dnsRecords = r :: rest ∧
      ((upsertDNSRecordByZone env z t n c p).2 =
        [CfOp.getRecords z.id n, CfOp.delete r.zoneID r.id] ∨
       (upsertDNSRecordByZone env z t n c p).2 =
        [CfOp.getRecords z.id n, CfOp.delete r.zoneID r.id,
         CfOp.post z.id { rtype := t, name := n, content := c }] ∨
       (upsertDNSRecordByZone env z t n c p).2 =
        [CfOp.getRecords z.id n,
         CfOp.put r.zoneID r.id
           { r with proxied := r.proxied && p, content := c }])) ∨
    (upsertDNSRecordByZone env z t n c p).2 =
      [CfOp.getRecords z.id n,
       CfOp.post z.id { rtype := t, name := n, content := c }] := by
  unfold upsertDNSRecordByZone getDNSRecordsByZoneAndName
  split
  case _ e gops heq =>
    injection heq with h1 h2
    subst h2
    exact Or.inl rfl
  case _ recordsRes gops heq =>
    injection heq with h1 h2
    subst h2
    by_cases hsucc : (env.records z.id n).success = true
    · rw [if_pos hsucc] at h1
      injection h1 with h1
      subst h1
      split
      · exact Or.inl rfl
      · split
        · split
          case _ hrecs => exact Or.inl rfl
          case _ r tail hrecs =>
            split
            case _ hty =>
              split
              case _ e dops heqd =>
                have hsnd : (deleteDNSRecordByDNSRecord env r).2 = dops :=
                  congrArg Prod.snd heqd
                rw [deleteDNSRecordByDNSRecord_ops] at hsnd
                refine Or.inr (Or.inl ⟨r, tail, hrecs, Or.inl ?_⟩)
                rw [← hsnd]
                rfl
              case _ dr dops heqd =>
                have hsnd : (deleteDNSRecordByDNSRecord env r).2 = dops :=
                  congrArg Prod.snd heqd
                rw [deleteDNSRecordByDNSRecord_ops] at hsnd
                split
                case _ e cops heqc =>
                  have hsnd2 : (createDNSRecordByZone env z t n c).2 = cops :=
                    congrArg Prod.snd heqc
                  rw [createDNSRecordByZone_ops] at hsnd2
                  refine Or.inr (Or.inl ⟨r, tail, hrecs, Or.inr (Or.inl ?_)⟩)
                  rw [← hsnd, ← hsnd2]
                  rfl
                case _ cr cops heqc =>
                  have hsnd2 : (createDNSRecordByZone env z t n c).2 = cops :=
                    congrArg Prod.snd heqc
                  rw [createDNSRecordByZone_ops] at hsnd2
                  refine Or.inr (Or.inl ⟨r, tail, hrecs, Or.inr (Or.inl ?_)⟩)
                  rw [← hsnd, ← hsnd2]
                  rfl
            case _ hty =>
              rw [proxyClear_eq]
              have hrt : ({ r with proxied := r.proxied && p } :
                  DNSRecord).rtype = t := by
                simp at hty
                simp [hty]
              split
              case _ e uops hequ =>
                have hsnd : (updateDNSRecordByDNSRecord env
                    { r with proxied := r.proxied && p } t c).2 = uops :=
                  congrArg Prod.snd hequ
                rw [updateDNSRecordByDNSRecord_ops env _ t c hrt] at hsnd
                refine Or.inr (Or.inl ⟨r, tail, hrecs, Or.inr (Or.inr ?_)⟩)
                rw [← hsnd]
                rfl
              case _ ur uops hequ =>
                have hsnd : (updateDNSRecordByDNSRecord env
                    { r with proxied := r.proxied && p } t c).2 = uops :=
                  congrArg Prod.snd hequ
                rw [updateDNSRecordByDNSRecord_ops env _ t c hrt] at hsnd
                refine Or.inr (Or.inl ⟨r, tail, hrecs, Or.inr (Or.inr ?_)⟩)
                rw [← hsnd]
                rfl
        · split
          case _ e cops heqc =>
            have hsnd2 : (createDNSRecordByZone env z t n c).2 = cops :=
              congrArg Prod.snd heqc
            rw [createDNSRecordByZone_ops] at hsnd2
            refine Or.inr (Or.inr ?_)
            rw [← hsnd2]
            rfl
          case _ cr cops heqc =>
            have hsnd2 : (createDNSRecordByZone env z t n c).2 = cops :=
              congrArg Prod.snd heqc
            rw [createDNSRecordByZone_ops] at hsnd2
            refine Or.inr (Or.inr ?_)
            rw [← hsnd2]
            rfl
    · rw [if_neg hsucc] at h1
      exact Except.noConfusion h1

lemma not_mem_of_filter_isMutation_nil {op : CfOp} {ops : List CfOp}
    (h : ops.filter isMutation = []) (hm : isMutation op = true) :
    op ∉ ops := by
  intro hmem
  have hin : op ∈ ops.filter isMutation := List.mem_filter.mpr ⟨hmem, hm⟩
  rw [h] at hin
  exact List.not_mem_nil op hin

lemma UpdateProxySetting_eq (env : CfEnv) (n : String) (p : Bool) (z : Zone)
    (ops0 : List CfOp) (hz : GetZoneByDNSName env n = (.ok z, ops0)) :
    UpdateProxySetting env n p =
      ((updateProxySettingByZone env z n p).1,
        ops0 ++ (updateProxySettingByZone env z n p).2) := by
  unfold UpdateProxySetting
  rw [hz]

lemma updateProxySettingByZone_put (env : CfEnv) (z : Zone) (n : String)
    (p : Bool) (zid rid : String) (rec : DNSRecord)
    (hmem : CfOp.put zid rid rec ∈ (updateProxySettingByZone env z n p).2) :
    rec.proxiable = true ∧ rec.proxied = p := by
  unfold updateProxySettingByZone getDNSRecordsByZoneAndName at hmem
  split at hmem
  case _ e gops heq =>
    injection heq with h1 h2
    subst h2
    simp at hmem
  case _ recordsRes gops heq =>
    injection heq with h1 h2
    subst h2
    split at hmem
    · simp at hmem
    · split at hmem
      · simp at hmem
      · split at hmem
        case _ hrecs => simp at hmem
        case _ r tail hrecs =>
          split at hmem
          case _ hprox =>
            simp at hmem
            obtain ⟨h1, h2, h3⟩ := hmem
            subst h3
            exact ⟨hprox, rfl⟩
          case _ hprox =>
            simp at hmem

/-- Claim C9: UpsertDNSRecord never enables proxying by itself for any
value of its proxied argument: created records are posted with the
proxied flag unset, and the record sent by the in-place update carries
the conjunction of the existing proxied flag with the requested one, so
an unproxied record can never become proxied there; the proxy is enabled
only by UpdateProxySetting, whose PUT is sent only for a record that
reports itself proxiable, with the proxied flag set to the requested
value. -/
theorem upsertDNSRecord_never_enables_proxy :
    (∀ env t n c p zid rec,
      CfOp.post zid rec ∈ (UpsertDNSRecord env t n c p).2 →
      rec.proxied = false)
    ∧
    (∀ env t n c p z ops0 r rest,
      GetZoneByDNSName env n = (.ok z, ops0) →
      (env.records z.id n).dnsRecords = r :: rest →
      ∀ zid rid rec, CfOp.put zid rid rec ∈ (UpsertDNSRecord env t n c p).2 →
        rec.proxied = (r.proxied && p))
    ∧
    (∀ env n p zid rid rec,
      CfOp.put zid rid rec ∈ (UpdateProxySetting env n p).2 →
      rec.proxiable = true ∧ rec.proxied = p) := by
  refine ⟨?_, ?_, ?_⟩
  · intro env t n c p zid rec hmem
    rcases hz : GetZoneByDNSName env n with ⟨zres, ops0⟩
    have hops0 : List.filter isMutation ops0 = [] := by
      have h := GetZoneByDNSName_no_mutation env n
      rw [hz] at h
      exact h
    cases zres with
    | error e =>
      unfold UpsertDNSRecord at hmem
      rw [hz] at hmem
      exact absurd hmem (not_mem_of_filter_isMutation_nil hops0 rfl)
    | ok z =>
      rw [UpsertDNSRecord_eq env t n c p z ops0 hz] at hmem
      rcases List.mem_append.mp hmem with h | h
      · exact absurd h (not_mem_of_filter_isMutation_nil hops0 rfl)
      · rcases upsertDNSRecordByZone_ops_cases env z t n c p with
          hc | ⟨r, rest, hrecs, hc | hc | hc⟩ | hc
        · rw [hc] at h
          simp at h
        · rw [hc] at h
          simp at h
        · rw [hc] at h
          simp at h
          obtain ⟨h1, h2⟩ := h
          subst h2
          rfl
        · rw [hc] at h
          simp at h
        · rw [hc] at h
          simp at h
          obtain ⟨h1, h2⟩ := h
          subst h2
          rfl
  · intro env t n c p z ops0 r rest hz hrec zid rid rec hmem
    have hops0 : List.filter isMutation ops0 = [] := by
      have h := GetZoneByDNSName_no_mutation env n
      rw [hz] at h
      exact h
    rw [UpsertDNSRecord_eq env t n c p z ops0 hz] at hmem
    rcases List.mem_append.mp hmem with h | h
    · exact absurd h (not_mem_of_filter_isMutation_nil hops0 rfl)
    · rcases upsertDNSRecordByZone_ops_cases env z t n c p with
        hc | ⟨r2, rest2, hrecs2, hc | hc | hc⟩ | hc
      · rw [hc] at h
        simp at h
      · rw [hc] at h
        simp at h
      · rw [hc] at h
        simp at h
      · rw [hrec] at hrecs2
        injection hrecs2 with hr2 hrest2
        subst hr2
        rw [hc] at h
        simp at h
        obtain ⟨h1, h2, h3⟩ := h
        subst h3
        rfl
      · rw [hc] at h
        simp at h
  · intro env n p zid rid rec hmem
    rcases hz : GetZoneByDNSName env n with ⟨zres, ops0⟩
    have hops0 : List.filter isMutation ops0 = [] := by
      have h := GetZoneByDNSName_no_mutation env n
      rw [hz] at h
      exact h
    cases zres with
    | error e =>
      unfold UpdateProxySetting at hmem
      rw [hz] at hmem
      exact absurd hmem (not_mem_of_filter_isMutation_nil hops0 rfl)
    | ok z =>
      rw [UpdateProxySetting_eq env n p z ops0 hz] at hmem
      rcases List.mem_append.mp hmem with h | h
      · exact absurd h (not_mem_of_filter_isMutation_nil hops0 rfl)
      · exact updateProxySettingByZone_put env z n p zid rid rec h

/-- A provider holding the zone example.com with a single proxiable CNAME
record named host.example.com, accepting every mutation. -/
def envUpsert : CfEnv :=
  { zones := fun s =>
      if s == "example.com" then
        { success := true, zones := [{ id := "zid", name := "example.com" }],
          resultInfo := { page := 1, perPage := 20, count := 1, totalCount := 1 } }
      else
        { success := true, zones := [], resultInfo := { perPage := 20 } },
    records := fun zid name =>
      if zid == "zid" && name == "host.example.com" then
        { success := true,
          dnsRecords :=
            [{ id := "rid", rtype := "CNAME", name := "host.example.com",
               content := "other.example.com", proxiable := true,
               proxied := false, ttl := 1, zoneID := "zid" }],
          resultInfo := { page := 1, perPage := 20, count := 1, totalCount := 1 } }
      else
        { success := true, dnsRecords := [], resultInfo := { perPage := 20 } },
    postResponse := fun _ r => { success := true, dnsRecord := r },
    putResponse := fun _ _ r => { success := true, dnsRecord := r },
    deleteResponse := fun _ _ => { success := true } }

/-- Witness for claim C1: upserting an A record over the existing CNAME
host.example.com mutates the provider by exactly a delete of the CNAME
followed by a create of the new A record. -/
theorem upsertDNSRecord_spec_witness :
    ((UpsertDNSRecord envUpsert "A" "host.example.com" "1.2.3.4" true).2).filter
        isMutation =
      [CfOp.delete "zid" "rid",
       CfOp.post "zid"
         { rtype := "A", name := "host.example.com", content := "1.2.3.4" }] :=
  ((upsertDNSRecord_spec envUpsert "A" "host.example.com" "1.2.3.4" true
      { id := "zid", name := "example.com" }
      [CfOp.getZones "host.example.com", CfOp.getZones "example.com"]
      (by rfl) (by rfl)).2
    { id := "rid", rtype := "CNAME", name := "host.example.com",
      content := "other.example.com", proxiable := true, proxied := false,
      ttl := 1, zoneID := "zid" } []
    (by rfl) (by rfl)).1 (by decide) (by rfl)

/-- Witness for claim C9: the PUT sent by UpdateProxySetting when asked to
enable the proxy on host.example.com carries a proxiable record with the
proxied flag set. -/
theorem upsertDNSRecord_never_enables_proxy_witness :
    DNSRecord.proxiable
      { id := "rid", rtype := "CNAME", name := "host.example.com",
        content := "other.example.com", proxiable := true, proxied := true,
        ttl := 1, zoneID := "zid" } = true ∧
    DNSRecord.proxied
      { id := "rid", rtype := "CNAME", name := "host.example.com",
        content := "other.example.com", proxiable := true, proxied := true,
        ttl := 1, zoneID := "zid" } = true :=
  upsertDNSRecord_never_enables_proxy.2.2 envUpsert "host.example.com" true
    "zid" "rid"
    { id := "rid", rtype := "CNAME", name := "host.example.com",
      content := "other.example.com", proxiable := true, proxied := true,
      ttl := 1, zoneID := "zid" }
    (by decide)

/-! ## Claim theorems: reconciliation -/

/-- The always-succeeding client used by concrete reconciliation runs. -/
def okClient : ClientEnv := fun _ => .ok ()

/-- Claim C2: reconciling the same object twice in a row with no
intervening change performs zero provider calls on the second pass: when
ipAddress, hostnames, proxy, useOriginRecord, originRecordHostname and
(for the service pass with its internal phase) internalIPAddress and
internalHostnames each equal the stored applied state, the pass makes no
client call, writes no annotation and reports skipped. -/
theorem reconcile_idempotent :
    (∀ client kubeUpdateOk desired current,
      desired.IPAddress = current.IPAddress →
      desired.Hostnames = current.Hostnames →
      desired.Proxy = current.Proxy →
      desired.UseOriginRecord = current.UseOriginRecord →
      desired.OriginRecordHostname = current.OriginRecordHostname →
      desired.InternalIPAddress = current.InternalIPAddress →
      desired.InternalHostnames = current.InternalHostnames →
      makeServiceChanges client kubeUpdateOk desired current =
        ⟨"skipped", [], none, none⟩)
    ∧
    (∀ client kubeUpdateOk desired current,
      desired.IPAddress = current.IPAddress →
      desired.Hostnames = current.Hostnames →
      desired.Proxy = current.Proxy →
      desired.UseOriginRecord = current.UseOriginRecord →
      desired.OriginRecordHostname = current.OriginRecordHostname →
      makeIngressChanges client kubeUpdateOk desired current =
        ⟨"skipped", [], none, none⟩) := by
  constructor
  · intro client kubeUpdateOk desired current h1 h2 h3 h4 h5 h6 h7
    have hext : ¬ externalTrigger desired current := by
      unfold externalTrigger
      simp [h1, h2, h3, h4, h5]
    have hint : ¬ internalTrigger desired current := by
      unfold internalTrigger
      simp [h6, h7]
    unfold makeServiceChanges
    rw [if_neg hext, if_neg hint]
    simp [hext, hint]
  · intro client kubeUpdateOk desired current h1 h2 h3 h4 h5
    have hext : ¬ externalTrigger desired current := by
      unfold externalTrigger
      simp [h1, h2, h3, h4, h5]
    unfold makeIngressChanges
    rw [if_neg hext]

/-- Witness for claim C2: a fully populated state reconciled against an
identical stored state is skipped with no calls by both passes. -/
theorem reconcile_idempotent_witness :
    makeServiceChanges okClient true
      { Enabled := "true", Hostnames := "a.example.com", IPAddress := "1.2.3.4",
        Proxy := "true", UseOriginRecord := "false", OriginRecordHostname := "",
        InternalHostnames := "int.example.org", InternalIPAddress := "10.0.0.1" }
      { Enabled := "true", Hostnames := "a.example.com", IPAddress := "1.2.3.4",
        Proxy := "true", UseOriginRecord := "false", OriginRecordHostname := "",
        InternalHostnames := "int.example.org", InternalIPAddress := "10.0.0.1" } =
      ⟨"skipped", [], none, none⟩ ∧
    makeIngressChanges okClient true
      { Enabled := "true", Hostnames := "a.example.com", IPAddress := "1.2.3.4",
        Proxy := "true", UseOriginRecord := "false", OriginRecordHostname := "" }
      { Enabled := "true", Hostnames := "a.example.com", IPAddress := "1.2.3.4",
        Proxy := "true", UseOriginRecord := "false", OriginRecordHostname := "" } =
      ⟨"skipped", [], none, none⟩ :=
  ⟨reconcile_idempotent.1 okClient true _ _ rfl rfl rfl rfl rfl rfl rfl,
   reconcile_idempotent.2 okClient true _ _ rfl rfl rfl rfl rfl⟩

/-- Claim C8: the applied-state decoder is total and never propagates an
error: with the state annotation absent, or with a value on which the
JSON parse fails, both getCurrentServiceState and getCurrentIngressState
return the zero-value state. -/
theorem getCurrentState_total :
    (∀ jsonParse service,
      lookupAnn service.annotationList annotationCloudflareState = none →
      getCurrentServiceState jsonParse service = {})
    ∧
    (∀ jsonParse service s,
      lookupAnn service.annotationList annotationCloudflareState = some s →
      jsonParse s = none →
      getCurrentServiceState jsonParse service = {})
    ∧
    (∀ jsonParse ingress,
      lookupAnn ingress.annotationList annotationCloudflareState = none →
      getCurrentIngressState jsonParse ingress = {})
    ∧
    (∀ jsonParse ingress s,
      lookupAnn ingress.annotationList annotationCloudflareState = some s →
      jsonParse s = none →
      getCurrentIngressState jsonParse ingress = {}) := by
  refine ⟨?_, ?_, ?_, ?_⟩
  · intro jsonParse service h
    unfold getCurrentServiceState
    rw [h]
  · intro jsonParse service s h hp
    simp only [getCurrentServiceState, h, hp]
  · intro jsonParse ingress h
    unfold getCurrentIngressState
    rw [h]
  · intro jsonParse ingress s h hp
    simp only [getCurrentIngressState, h, hp]

/-- Witness for claim C8: an object with no state annotation and an
object whose state annotation defeats the parser both decode to the
zero-value state. -/
theorem getCurrentState_total_witness :
    getCurrentServiceState (fun _ => none) { specType := "LoadBalancer" } = {} ∧
    getCurrentServiceState (fun _ => none)
      { annotationList := [(annotationCloudflareState, "not valid json")] } = {} ∧
    getCurrentIngressState (fun _ => none) {} = {} :=
  ⟨getCurrentState_total.1 (fun _ => none) { specType := "LoadBalancer" } rfl,
   getCurrentState_total.2.1 (fun _ => none)
     { annotationList := [(annotationCloudflareState, "not valid json")] }
     "not valid json" (by rfl) rfl,
   getCurrentState_total.2.2.1 (fun _ => none) {} rfl⟩

/-- The desired state of the C4 counterexample: enabled, external
hostnames present but no external ip, with the internal record set
populated. -/
def stateC4 : CloudflareState :=
  { Enabled := "true", Hostnames := "a.com", IPAddress := "",
    InternalHostnames := "int.example.org", InternalIPAddress := "10.0.0.1",
    Proxy := "true", UseOriginRecord := "false", OriginRecordHostname := "" }

/-- Claim C4 (amended): a desired state whose enabled flag is not the
string true never triggers any provider call in either pass, regardless
of the other fields; and a desired state with enabled true, non-empty
hostnames and empty ipAddress skips the external phase, and the pass
returns skipped with no provider call provided the internal phase does
not trigger on its own (internal hostnames or internal ip empty, or the
internal fields unchanged). -/
theorem guard_conditions (client : ClientEnv) (kubeUpdateOk : Bool)
    (desired current : CloudflareState) :
    (desired.Enabled ≠ "true" →
      makeServiceChanges client kubeUpdateOk desired current =
        ⟨"skipped", [], none, none⟩ ∧
      makeIngressChanges client kubeUpdateOk desired current =
        ⟨"skipped", [], none, none⟩)
    ∧
    (desired.Enabled = "true" → desired.Hostnames ≠ "" →
      desired.IPAddress = "" → ¬ internalTrigger desired current →
      makeServiceChanges client kubeUpdateOk desired current =
        ⟨"skipped", [], none, none⟩) := by
  constructor
  · intro hen
    have hext : ¬ externalTrigger desired current := by
      unfold externalTrigger
      simp [hen]
    have hint : ¬ internalTrigger desired current := by
      unfold internalTrigger
      simp [hen]
    constructor
    · unfold makeServiceChanges
      rw [if_neg hext, if_neg hint]
      simp [hext, hint]
    · unfold makeIngressChanges
      rw [if_neg hext]
  · intro hen hhost hip hint
    have hext : ¬ externalTrigger desired current := by
      unfold externalTrigger
      simp [hip]
    unfold makeServiceChanges
    rw [if_neg hext, if_neg hint]
    simp [hext, hint]

/-- Counterexample for claim C4: with enabled true, hostnames a.com and
an empty ip address, the reconciliation pass is not skipped and does make
a provider call: the internal phase triggers on its own guard, upserts
the internal hostname, writes the state annotation and reports
succeeded. -/
theorem guard_conditions_counterexample :
    stateC4.Enabled = "true" ∧ stateC4.Hostnames ≠ "" ∧
    stateC4.IPAddress = "" ∧
    makeServiceChanges okClient true stateC4 {} =
      ⟨"succeeded", [ClientCall.upsert "A" "int.example.org" "10.0.0.1" false],
        some stateC4, none⟩ := by
  refine ⟨rfl, by decide, rfl, by rfl⟩

/-- Witness for claim C4 (amended): a disabled desired state is skipped
by both passes, and an enabled one with hostnames but no ip address and
no internal record set is skipped by the service pass. -/
theorem guard_conditions_witness :
    makeServiceChanges okClient true
      { Enabled := "false", Hostnames := "a.example.com", IPAddress := "1.2.3.4" }
      {} = ⟨"skipped", [], none, none⟩ ∧
    makeIngressChanges okClient true
      { Enabled := "false", Hostnames := "a.example.com", IPAddress := "1.2.3.4" }
      {} = ⟨"skipped", [], none, none⟩ ∧
    makeServiceChanges okClient true
      { Enabled := "true", Hostnames := "a.example.com", IPAddress := "" }
      {} = ⟨"skipped", [], none, none⟩ :=
  ⟨(guard_conditions okClient true _ _ |>.1 (by decide)).1,
   (guard_conditions okClient true _ _ |>.1 (by decide)).2,
   guard_conditions okClient true _ _ |>.2 rfl (by decide) rfl (by decide)⟩

lemma hostnameLoop_ok (client : ClientEnv) (desired : CloudflareState)
    (validate : Bool) (hcl : ∀ call, client call = .ok ()) :
    ∀ l, (hostnameLoop client desired validate l).1 = .ok () := by
  intro l
  induction l with
  | nil => rfl
  | cons hostname rest ih =>
    unfold hostnameLoop
    split
    · exact ih
    · rw [hcl (hostnameUpsertCall desired hostname),
        hcl (ClientCall.updateProxy hostname (desired.Proxy == "true"))]
      rcases hpair : hostnameLoop client desired validate rest with ⟨res, calls⟩
      rw [hpair] at ih
      exact ih

lemma internalHostnameLoop_ok (client : ClientEnv) (internalIPAddress : String)
    (hcl : ∀ call, client call = .ok ()) :
    ∀ l, (internalHostnameLoop client internalIPAddress l).1 = .ok () := by
  intro l
  induction l with
  | nil => rfl
  | cons hostname rest ih =>
    unfold internalHostnameLoop
    rw [hcl (ClientCall.upsert "A" hostname internalIPAddress false)]
    rcases hpair : internalHostnameLoop client internalIPAddress rest with ⟨res, calls⟩
    rw [hpair] at ih
    exact ih

lemma internalRecordSetChanges_ok (client : ClientEnv)
    (desired : CloudflareState) (hcl : ∀ call, client call = .ok ()) :
    (internalRecordSetChanges client desired).1 = .ok () :=
  internalHostnameLoop_ok client desired.InternalIPAddress hcl _

lemma externalRecordSetChanges_origin_delete (client : ClientEnv)
    (desired : CloudflareState) (validate : Bool)
    (hcl : ∀ call, client call = .ok ())
    (hoff : desired.UseOriginRecord ≠ "true")
    (hname : desired.OriginRecordHostname ≠ "") :
    externalRecordSetChanges client desired validate =
      (.ok (),
        (hostnameLoop client desired validate
          (splitOnChar (',') desired.Hostnames)).2 ++
        [ClientCall.deleteRecord desired.OriginRecordHostname]) := by
  unfold externalRecordSetChanges
  rw [if_neg (fun h => hoff h.1)]
  rcases hloop : hostnameLoop client desired validate
      (splitOnChar (',') desired.Hostnames) with ⟨res, calls1⟩
  have hres : res = .ok () := by
    have h := hostnameLoop_ok client desired validate hcl
      (splitOnChar (',') desired.Hostnames)
    rw [hloop] at h
    exact h
  subst hres
  split
  case _ e calls0 heq =>
    injection heq with h1 h2
    exact Except.noConfusion h1
  case _ a calls0 heq =>
    injection heq with h1 h2
    subst h2
    split
    case _ e calls1x heq2 =>
      injection heq2 with h3 h4
      exact Except.noConfusion h3
    case _ a2 calls1x heq2 =>
      injection heq2 with h3 h4
      subst h4
      rw [if_pos ⟨hname, Or.inl hoff⟩,
        hcl (ClientCall.deleteRecord desired.OriginRecordHostname)]
      rfl

/-- Claim C5 (amended): in a changed pass where every client call
succeeds, the reconciler deletes the origin A record exactly when the
DESIRED state still names an origin hostname while its useOriginRecord
flag is not true; an origin hostname remembered only by the applied
state is never deleted (see the counterexample). -/
theorem origin_record_deletion (client : ClientEnv) (kubeUpdateOk : Bool)
    (desired current : CloudflareState)
    (hcl : ∀ call, client call = .ok ())
    (hext : externalTrigger desired current)
    (hoff : desired.UseOriginRecord ≠ "true")
    (hname : desired.OriginRecordHostname ≠ "") :
    ClientCall.deleteRecord desired.OriginRecordHostname ∈
      (makeServiceChanges client kubeUpdateOk desired current).calls ∧
    ClientCall.deleteRecord desired.OriginRecordHostname ∈
      (makeIngressChanges client kubeUpdateOk desired current).calls := by
  constructor
  · unfold makeServiceChanges
    rw [if_pos hext,
      externalRecordSetChanges_origin_delete client desired true hcl hoff hname]
    split
    case _ e calls1 heq =>
      injection heq with h1 h2
      exact Except.noConfusion h1
    case _ a calls1 heq =>
      injection heq with h1 h2
      subst h2
      by_cases hint : internalTrigger desired current
      · rw [if_pos hint]
        rcases hpair : internalRecordSetChanges client desired with ⟨res2, calls2⟩
        have hres2 : res2 = .ok () := by
          have h := internalRecordSetChanges_ok client desired hcl
          rw [hpair] at h
          exact h
        subst hres2
        split
        case _ e calls2x heq2 =>
          injection heq2 with h3 h4
          exact Except.noConfusion h3
        case _ a2 calls2x heq2 =>
          injection heq2 with h3 h4
          subst h4
          rw [if_pos (Or.inl hext)]
          cases kubeUpdateOk <;> simp
      · rw [if_neg hint]
        split
        case _ e calls2x heq2 =>
          injection heq2 with h3 h4
          exact Except.noConfusion h3
        case _ a2 calls2x heq2 =>
          injection heq2 with h3 h4
          subst h4
          rw [if_pos (Or.inl hext)]
          cases kubeUpdateOk <;> simp
  · unfold makeIngressChanges
    rw [if_pos hext,
      externalRecordSetChanges_origin_delete client desired false hcl hoff hname]
    split
    case _ e calls1 heq =>
      injection heq with h1 h2
      exact Except.noConfusion h1
    case _ a calls1 heq =>
      injection heq with h1 h2
      subst h2
      cases kubeUpdateOk <;> simp

/-- The desired state of the C5 counterexample and witness family: origin
indirection switched off. -/
def stateC5 : CloudflareState :=
  { Enabled := "true", Hostnames := "a.example.com", IPAddress := "1.2.3.4",
    Proxy := "true", UseOriginRecord := "false", OriginRecordHostname := "" }

/-- The applied state of the C5 counterexample: it still names the origin
hostname origin.example.com. -/
def stateC5applied : CloudflareState :=
  { Enabled := "true", Hostnames := "a.example.com", IPAddress := "1.2.3.4",
    Proxy := "true", UseOriginRecord := "true",
    OriginRecordHostname := "origin.example.com" }

/-- Counterexample for claim C5: origin indirection is turned off and the
origin hostname cleared while the APPLIED state still names
origin.example.com; the pass runs (change detected, status succeeded)
yet no deletion of that origin record is performed — the code only
consults the desired state's origin hostname, which is empty. -/
theorem origin_record_deletion_counterexample :
    stateC5.UseOriginRecord ≠ "true" ∧
    stateC5.OriginRecordHostname = "" ∧
    stateC5applied.OriginRecordHostname = "origin.example.com" ∧
    makeServiceChanges okClient true stateC5 stateC5applied =
      ⟨"succeeded",
        [ClientCall.upsert "A" "a.example.com" "1.2.3.4" true,
         ClientCall.updateProxy "a.example.com" true],
        some stateC5, none⟩ ∧
    ClientCall.deleteRecord "origin.example.com" ∉
      (makeServiceChanges okClient true stateC5 stateC5applied).calls := by
  refine ⟨by decide, rfl, rfl, by rfl, by decide⟩

/-- The desired state of the C5 witness: origin indirection switched off
while the desired state itself still names the origin hostname. -/
def stateC5desired : CloudflareState :=
  { Enabled := "true", Hostnames := "a.example.com", IPAddress := "1.2.3.4",
    Proxy := "true", UseOriginRecord := "false",
    OriginRecordHostname := "origin.example.com" }

/-- Witness for claim C5 (amended): when the desired state still names
origin.example.com with useOriginRecord off, both passes delete it. -/
theorem origin_record_deletion_witness :
    ClientCall.deleteRecord "origin.example.com" ∈
      (makeServiceChanges okClient true stateC5desired {}).calls ∧
    ClientCall.deleteRecord "origin.example.com" ∈
      (makeIngressChanges okClient true stateC5desired {}).calls :=
  origin_record_deletion okClient true stateC5desired {}
    (fun _ => rfl) (by decide) (by decide) (by decide)

/-- Claim C6 (amended): the validation predicate rejects a (one label),
rejects a hostname containing a 64-character label and accepts
sub.example.com; and the SERVICE pass hostname loop behaves exactly as if
run on the validateHostname-filtered list, so an invalid hostname is
skipped without failing the pass. The ingress pass performs no
validation (see the counterexample). -/
theorem hostname_validation :
    validateHostname "a" = false ∧
    validateHostname
      "aaaaaaaaaaaaaaaaaaaaaaaaaaaaaaaaaaaaaaaaaaaaaaaaaaaaaaaaaaaaaaaa.com" =
      false ∧
    validateHostname "sub.example.com" = true ∧
    (∀ client desired l,
      hostnameLoop client desired true l =
        hostnameLoop client desired true (l.filter validateHostname)) := by
  refine ⟨by decide, by decide, by decide, ?_⟩
  intro client desired l
  induction l with
  | nil => rfl
  | cons hostname rest ih =>
    by_cases hv : validateHostname hostname
    · rw [List.filter_cons, if_pos hv]
      unfold hostnameLoop
      rw [ih]
    · rw [List.filter_cons, if_neg hv]
      conv_lhs => rw [hostnameLoop]
      rw [if_pos (by simp [Bool.not_eq_true] at hv ⊢; simp [hv])]
      exact ih

/-- The desired ingress state of the C6 counterexample: its single
hostname a is invalid (one label). -/
def stateC6 : CloudflareState :=
  { Enabled := "true", Hostnames := "a", IPAddress := "1.2.3.4",
    Proxy := "true", UseOriginRecord := "false", OriginRecordHostname := "" }

/-- Counterexample for claim C6: the ingress pass does not validate
hostnames: the invalid single-label hostname a is not skipped but
upserted (followed by the proxy toggle), while the service pass on the
same state does validate and skips it, making zero calls. -/
theorem hostname_validation_counterexample :
    validateHostname "a" = false ∧
    makeIngressChanges okClient true stateC6 {} =
      ⟨"succeeded",
        [ClientCall.upsert "A" "a" "1.2.3.4" true,
         ClientCall.updateProxy "a" true],
        some stateC6, none⟩ ∧
    makeServiceChanges okClient true stateC6 {} =
      ⟨"succeeded", [], some stateC6, none⟩ := by
  refine ⟨by decide, by rfl, by rfl⟩

/-- Deleting the record of an empty hostname fails inside zone resolution
with the parse-level error, for every provider environment. -/
lemma clientOfEnv_deleteIfMatching_empty (env : CfEnv) (t ip : String) :
    clientOfEnv env (ClientCall.deleteIfMatching "" t ip) =
      .error (.dnsNameTooFewParts "") := by
  have hz : GetZoneByDNSName env "" = (.error (.dnsNameTooFewParts ""), []) := by
    unfold GetZoneByDNSName
    rw [if_pos (by decide)]
  show Except.map (fun _ => ())
    (DeleteDNSRecordIfMatching env "" t ip).1 = .error (.dnsNameTooFewParts "")
  unfold DeleteDNSRecordIfMatching
  rw [hz]
  rfl

lemma deleteLoop_single_error (client : ClientEnv) (t ip : String)
    (e : CfError) (hc : client (ClientCall.deleteIfMatching "" t ip) = .error e) :
    deleteLoop client t ip [""] "failed" none =
      ("failed", [ClientCall.deleteIfMatching "" t ip], some e) := by
  unfold deleteLoop
  rw [hc]
  rfl

/-- Claim C10: deleting an object whose hostnames annotation is absent or
empty still performs exactly one deletion attempt, for the empty-string
hostname produced by comma-splitting the empty string; that attempt fails
in zone resolution (the empty hostname has fewer than two labels), so the
pass reports failed with the parse-level error rather than skipping. -/
theorem deleteService_empty_hostnames (env : CfEnv) (svc : KubeService)
    (h : lookupAnn svc.annotationList annotationCloudflareHostnames = none ∨
      lookupAnn svc.annotationList annotationCloudflareHostnames = some "") :
    deleteService (clientOfEnv env) (some svc) =
      ⟨"failed",
        [ClientCall.deleteIfMatching ""
          (if (getDesiredServiceState svc).UseOriginRecord = "true" ∧
              (getDesiredServiceState svc).OriginRecordHostname ≠ ""
           then "CNAME" else "A")
          (getDesiredServiceState svc).IPAddress],
        none, some (.dnsNameTooFewParts "")⟩ := by
  have hh : (getDesiredServiceState svc).Hostnames = "" := by
    unfold getDesiredServiceState
    rcases h with h | h <;> simp [h]
  simp only [deleteService]
  rw [hh]
  rw [show splitOnChar (',') "" = [""] from rfl]
  rw [deleteLoop_single_error (clientOfEnv env) _ _ _
    (clientOfEnv_deleteIfMatching_empty env _ _)]

/-- Witness for claim C10: a service with no annotations at all is torn
down with a single failing deletion attempt for the empty hostname. -/
theorem deleteService_empty_hostnames_witness :
    deleteService (clientOfEnv envZoneSample) (some {}) =
      ⟨"failed", [ClientCall.deleteIfMatching "" "A" ""], none,
        some (.dnsNameTooFewParts "")⟩ :=
  deleteService_empty_hostnames envZoneSample {} (Or.inl rfl)

end CloudflareDNS
